import Mathlib

/-!
# Verification of the multi-camera video-stream engine

Shallow embedding of `backend/app/config/params.py` and
`backend/app/video_stream_manager.py`, and proofs about the claims of the
specification.

Modelling conventions:
* Python floats are modelled as exact rationals (`ℚ`); the one place where a
  transcendental operation occurs (the gamma table, which computes
  `(i/255.0) ** (1/gamma)`) is modelled over `ℝ` with `Real.rpow`.
* Python dicts of enhancement parameters are modelled as finite association
  maps `String → Option PVal` built from key/value lists.
* Fallible calls (a `TypeError` raised by a keyword-splat call) are modelled
  with `Except Unit`.
-/

/-- A Python value stored in the enhancement-parameter dict: a bool, a
number (int or float, modelled as `ℚ`), or a pair of ints. -/
inductive PVal where
  | pbool : Bool → PVal
  | pnum : ℚ → PVal
  | ppair : ℕ × ℕ → PVal
deriving DecidableEq

/-- A parameter dict: a partial map from key names to values. -/
def ParamStore : Type := String → Option PVal

/-- Python truthiness of a parameter value (used by `params.get(...)` results
appearing in `if` conditions). -/
def pvTruthy : PVal → Bool
  | .pbool b => b
  | .pnum q => decide (q ≠ 0)
  | .ppair _ => true

/-- `DEFAULT_ENHANCE_PARAMS` from `backend/app/config/params.py`, as the
key/value list written in the source. -/
def defaultEnhanceList : List (String × PVal) :=
  [("lut_enabled", .pbool true),
   ("lut_strength", .pnum 1),             -- 1.0
   ("lut_gamma", .pnum (Rat.mk' 17 20)),  -- 0.85
   ("lut_brightness", .pnum 20),          -- 20
   ("lut_contrast", .pnum (Rat.mk' 6 5)), -- 1.2
   ("clahe_enabled", .pbool true),
   ("clahe_clip_limit", .pnum (Rat.mk' 9 5)), -- 1.8
   ("clahe_tile_grid_size", .ppair (16, 16)),
   ("defogging_enabled", .pbool false),
   ("defogging_strength", .pnum 0)]       -- 0.0

/-- The default parameter dict `DEFAULT_ENHANCE_PARAMS` as a map. -/
def DEFAULT_ENHANCE_PARAMS : ParamStore := fun k => defaultEnhanceList.lookup k

/-- `dict.get(k, d)` for boolean-ish reads: the stored value's truthiness, or
the default when the key is absent. -/
def getTruthy (p : ParamStore) (k : String) (d : Bool) : Bool :=
  match p k with
  | some v => pvTruthy v
  | none => d

/-- `dict.get(k, d)` for numeric reads.  A wrong-typed stored value would
fault in the numeric Python code; no claim exercises that case, and we read
it as the default. -/
def getNum (p : ParamStore) (k : String) (d : ℚ) : ℚ :=
  match p k with
  | some (.pnum q) => q
  | some _ => d
  | none => d

/-- `dict.get(k, d)` for pair reads (the CLAHE tile grid size). -/
def getPair (p : ParamStore) (k : String) (d : ℕ × ℕ) : ℕ × ℕ :=
  match p k with
  | some (.ppair pr) => pr
  | _ => d

/-- `st[k] = v` on a parameter dict. -/
def setParam (st : ParamStore) (k : String) (v : PVal) : ParamStore :=
  fun k' => if k' = k then some v else st k'

/-- `get_enhance_params()` from `params.py`: returns a copy of the current
store; copies are value-equal, so the snapshot is the store itself. -/
def get_enhance_params (st : ParamStore) : ParamStore := st

/-- `update_enhance_params(lut_strength=None, gamma=None, clahe_clip_limit=None)`
from `params.py`: writes each of the three supported keys exactly when the
corresponding argument was provided (is not `None`). -/
def update_enhance_params
    (lut_strength gamma clahe_clip_limit : Option PVal) (st : ParamStore) :
    ParamStore :=
  let st1 := match lut_strength with
    | some v => setParam st "lut_strength" v
    | none => st
  let st2 := match gamma with
    | some v => setParam st1 "gamma" v
    | none => st1
  match clahe_clip_limit with
  | some v => setParam st2 "clahe_clip_limit" v
  | none => st2

/-- `reset_enhance_params()` from `params.py`. -/
def reset_enhance_params : ParamStore := DEFAULT_ENHANCE_PARAMS

/-- The keyword names accepted by `update_enhance_params`. -/
def allowedUpdateKeys : List String := ["lut_strength", "gamma", "clahe_clip_limit"]

/-- `VideoStreamProcessor.update_params(params: dict)`, which calls
`update_enhance_params(**params)`.  The keyword splat raises `TypeError`
(before any write) when the dict holds a key outside the three supported
keyword parameters; otherwise each supported key present in the dict is
passed as the corresponding keyword argument. -/
def processor_update_params (p : List (String × PVal)) (st : ParamStore) :
    Except Unit ParamStore :=
  if p.all (fun kv => allowedUpdateKeys.contains kv.1) then
    .ok (update_enhance_params (p.lookup "lut_strength") (p.lookup "gamma")
      (p.lookup "clahe_clip_limit") st)
  else
    .error ()

/-- The record `st` overlaid with the partial update `p`: exactly the keys
present in `p` are overwritten.  This is the spec's wording of a partial
update, used to compare against the source's `update_enhance_params`. -/
def overlayParams (st : ParamStore) (p : List (String × PVal)) : ParamStore :=
  fun k =>
    match p.lookup k with
    | some v => some v
    | none => st k

/-- `VideoStreamManager.update_enhance_params(camera_id=None, params=None)`:
under Python truthiness (`if camera_id:`), a non-empty id routes to that
processor's hook when registered, and a falsy id (`None` or `""`) broadcasts
through every registered processor's hook.  Each hook writes the shared
global store, so the broadcast folds the same update over the store once per
processor; an exception raised by a hook propagates. -/
def manager_update_enhance_params (procs : List String)
    (camera_id : Option String) (p : List (String × PVal)) (st : ParamStore) :
    Except Unit ParamStore :=
  match camera_id with
  | some cid =>
    if cid ≠ "" then
      if procs.contains cid then processor_update_params p st else .ok st
    else
      procs.foldlM (fun s _ => processor_update_params p s) st
  | none => procs.foldlM (fun s _ => processor_update_params p s) st




/-- C2: counterexample.  The default record has no `"gamma"` key at all
(so no default gamma value is defined, while the spec names `gamma`), its
`clahe_clip_limit` default is 1.8 rather than 2.0, and its
`clahe_tile_grid_size` default is (16,16) rather than (8,8). -/
theorem C2_defaults_counterexample :
    DEFAULT_ENHANCE_PARAMS "gamma" = none ∧
    DEFAULT_ENHANCE_PARAMS "clahe_clip_limit" = some (.pnum (Rat.mk' 9 5)) ∧
    (Rat.mk' 9 5 : ℚ) ≠ 2 ∧
    DEFAULT_ENHANCE_PARAMS "clahe_tile_grid_size" = some (.ppair (16, 16)) ∧
    ((16, 16) : ℕ × ℕ) ≠ (8, 8) := by
  decide

/-- C2 (amended): the default enhancement-parameter record defines exactly
the values written in `params.py` — `lut_enabled = true`,
`lut_strength = 1.0`, `lut_gamma = 0.85`, `lut_brightness = 20`,
`lut_contrast = 1.2`, `clahe_enabled = true`, `clahe_clip_limit = 1.8`,
`clahe_tile_grid_size = (16,16)`, `defogging_enabled = false`,
`defogging_strength = 0.0` — and defines no `"gamma"` key; the enhancement
pipeline's `params.get("gamma", 1.0)` read therefore falls back to 1.0. -/
theorem C2_default_params :
    DEFAULT_ENHANCE_PARAMS "lut_enabled" = some (.pbool true) ∧
    DEFAULT_ENHANCE_PARAMS "lut_strength" = some (.pnum 1) ∧
    DEFAULT_ENHANCE_PARAMS "lut_gamma" = some (.pnum (Rat.mk' 17 20)) ∧
    DEFAULT_ENHANCE_PARAMS "lut_brightness" = some (.pnum 20) ∧
    DEFAULT_ENHANCE_PARAMS "lut_contrast" = some (.pnum (Rat.mk' 6 5)) ∧
    DEFAULT_ENHANCE_PARAMS "clahe_enabled" = some (.pbool true) ∧
    DEFAULT_ENHANCE_PARAMS "clahe_clip_limit" = some (.pnum (Rat.mk' 9 5)) ∧
    DEFAULT_ENHANCE_PARAMS "clahe_tile_grid_size" = some (.ppair (16, 16)) ∧
    DEFAULT_ENHANCE_PARAMS "defogging_enabled" = some (.pbool false) ∧
    DEFAULT_ENHANCE_PARAMS "defogging_strength" = some (.pnum 0) ∧
    DEFAULT_ENHANCE_PARAMS "gamma" = none ∧
    getNum DEFAULT_ENHANCE_PARAMS "gamma" 1 = 1 := by
  decide

/-- Helper: a lookup misses when no key of the list matches. -/
theorem lookup_eq_none_of_forall_ne {β : Type} (p : List (String × β)) (k : String)
    (h : ∀ kv ∈ p, kv.1 ≠ k) : p.lookup k = none := by
  induction p with
  | nil => rfl
  | cons kv rest ih =>
    have hk : (k == kv.1) = false := by
      have := h kv (List.mem_cons_self kv rest)
      simp [beq_eq_false_iff_ne]
      exact fun hh => this hh.symm
    simp [List.lookup, hk]
    intro a b hab heq
    exact h (a, b) (List.mem_cons_of_mem kv hab) heq.symm

/-- Helper: pointwise description of `update_enhance_params`. -/
theorem update_enhance_params_apply (ls g ccl : Option PVal) (st : ParamStore)
    (k : String) :
    update_enhance_params ls g ccl st k =
      if k = "clahe_clip_limit" then
        (match ccl with | some v => some v | none => st k)
      else if k = "gamma" then
        (match g with | some v => some v | none => st k)
      else if k = "lut_strength" then
        (match ls with | some v => some v | none => st k)
      else st k := by
  by_cases h1 : k = "clahe_clip_limit" <;>
    by_cases h2 : k = "gamma" <;>
      by_cases h3 : k = "lut_strength" <;>
        first
        | (exact absurd (h2 ▸ h1) (by decide))
        | (exact absurd (h3 ▸ h1) (by decide))
        | (exact absurd (h3 ▸ h2) (by decide))
        | (cases ls <;> cases g <;> cases ccl <;>
            simp [update_enhance_params, setParam, h1, h2, h3])

/-- C7: counterexample.  The update `{"lut_enabled": False}` raises
`TypeError` (the keyword call supports only `lut_strength`, `gamma` and
`clahe_clip_limit`), so the store is left unchanged, while the claimed
overlay would have overwritten `lut_enabled`; the subsequent
`get_params()` result (the unchanged previous record) therefore differs
from the previous record overlaid with the update. -/
theorem C7_update_params_counterexample :
    processor_update_params [("lut_enabled", .pbool false)] DEFAULT_ENHANCE_PARAMS
      = .error () ∧
    overlayParams DEFAULT_ENHANCE_PARAMS [("lut_enabled", .pbool false)] "lut_enabled"
      ≠ get_enhance_params DEFAULT_ENHANCE_PARAMS "lut_enabled" :=
  ⟨rfl, by decide⟩

/-- C7 (amended): for every partial update `p` whose keys all lie in the
supported set `{lut_strength, gamma, clahe_clip_limit}`, calling
`update_params(p)` succeeds and the subsequent `get_params()` yields exactly
the previous record overlaid with `p` (fields present in `p` overwritten,
every other field unchanged); updates with any other key raise `TypeError`
and leave the store unchanged. -/
theorem C7_partial_update_overlay (p : List (String × PVal)) (st : ParamStore)
    (hk : ∀ kv ∈ p, kv.1 ∈ allowedUpdateKeys) :
    processor_update_params p st = .ok (overlayParams st p) ∧
    get_enhance_params (overlayParams st p) = overlayParams st p := by
  refine ⟨?_, rfl⟩
  have hall : p.all (fun kv => allowedUpdateKeys.contains kv.1) = true := by
    rw [List.all_eq_true]
    intro kv hkv
    simpa using hk kv hkv
  rw [processor_update_params, if_pos hall]
  refine congrArg Except.ok (funext fun k => ?_)
  rw [update_enhance_params_apply, overlayParams]
  by_cases h1 : k = "clahe_clip_limit"
  · subst h1; simp
  · rw [if_neg h1]
    by_cases h2 : k = "gamma"
    · subst h2; simp
    · rw [if_neg h2]
      by_cases h3 : k = "lut_strength"
      · subst h3; simp
      · rw [if_neg h3]
        have hnone : p.lookup k = none := by
          apply lookup_eq_none_of_forall_ne
          intro kv hkv hke
          have hmem := hk kv hkv
          rw [hke] at hmem
          simp only [allowedUpdateKeys, List.mem_cons, List.mem_singleton,
            List.not_mem_nil, or_false] at hmem
          rcases hmem with h | h | h
          · exact h3 h
          · exact h2 h
          · exact h1 h
        rw [hnone]

/-- C7 witness: a concrete supported update (`gamma := 0.5`) applied to the
default store overlays exactly that field. -/
theorem C7_partial_update_overlay_witness :
    (∀ kv ∈ [(("gamma" : String), PVal.pnum (Rat.mk' 1 2))], kv.1 ∈ allowedUpdateKeys) ∧
    processor_update_params [("gamma", .pnum (Rat.mk' 1 2))] DEFAULT_ENHANCE_PARAMS
      = .ok (overlayParams DEFAULT_ENHANCE_PARAMS [("gamma", .pnum (Rat.mk' 1 2))]) :=
  ⟨by decide,
   (C7_partial_update_overlay [("gamma", .pnum (Rat.mk' 1 2))] DEFAULT_ENHANCE_PARAMS
      (by decide)).1⟩

/-- C10: counterexample.  With one processor `cam1` registered, a params
dict `{"gamma": 0.5}` and `camera_id = ""` — a camera id that names no
registered processor and is not omitted — the call broadcasts (Python's
`if camera_id:` treats `""` as falsy) and writes the global store: the
`"gamma"` key changes from absent to 0.5. -/
theorem C10_counterexample :
    (("" : String) ∉ (["cam1"] : List String)) ∧
    (manager_update_enhance_params ["cam1"] (some "")
        [("gamma", .pnum (Rat.mk' 1 2))] DEFAULT_ENHANCE_PARAMS).map
        (fun st => st "gamma")
      = .ok (some (.pnum (Rat.mk' 1 2))) ∧
    DEFAULT_ENHANCE_PARAMS "gamma" = none :=
  ⟨by decide, rfl, rfl⟩

/-- C10 (amended): `VideoStreamManager.update_enhance_params` leaves the
global parameter store unchanged whenever `camera_id` is a non-empty string
that names no registered processor, or `camera_id` is omitted (or the empty
string) and no processors are registered.  (With `camera_id = ""` and
processors registered the code broadcasts, because Python's `if camera_id:`
is false for the empty string.) -/
theorem C10_no_processor_store_unchanged (procs : List String)
    (camera_id : Option String) (p : List (String × PVal)) (st : ParamStore)
    (h : (∃ cid, camera_id = some cid ∧ cid ≠ "" ∧ cid ∉ procs) ∨
         ((camera_id = none ∨ camera_id = some "") ∧ procs = [])) :
    manager_update_enhance_params procs camera_id p st = .ok st := by
  rcases h with ⟨cid, hc, hne, hmem⟩ | ⟨hc, hp⟩
  · subst hc
    simp [manager_update_enhance_params, hne]
    exact fun hmem' => absurd hmem' hmem
  · subst hp
    rcases hc with hc | hc <;> subst hc <;> rfl

/-- C10 witness: a non-empty unregistered id leaves the store unchanged. -/
theorem C10_no_processor_store_unchanged_witness :
    (("camX" : String) ≠ "" ∧ ("camX" : String) ∉ (["cam1"] : List String)) ∧
    manager_update_enhance_params ["cam1"] (some "camX")
        [("gamma", .pnum (Rat.mk' 1 2))] DEFAULT_ENHANCE_PARAMS
      = .ok DEFAULT_ENHANCE_PARAMS :=
  ⟨⟨by decide, by decide⟩,
   C10_no_processor_store_unchanged ["cam1"] (some "camX") _ _
     (Or.inl ⟨"camX", rfl, by decide, by decide⟩)⟩

/-! ## The frame-reader loop `VideoStreamProcessor._process_frames`

State and per-iteration step of the reader loop.  Enhancement wall-time is
measured in milliseconds (an exact rational); the source compares the time
in seconds against `0.06` and `0.03`, which here are the thresholds `60`
and `30` ms. -/

/-- The mutable loop variables of `_process_frames`, together with the
processor's `running` flag. -/
structure LoopState where
  running : Bool
  restart_failures : ℕ
  empty_reads : ℕ
  skip_counter : ℕ
  skip_interval : ℕ
  published : ℕ
deriving DecidableEq

/-- One iteration's input: the decoder pipe is closed, a read returning
`len` bytes whose (potential) enhancement takes `t` ms of wall-time, or an
unexpected exception in the loop body. -/
inductive LoopEvent where
  | pipeClosed : LoopEvent
  | readBytes : ℕ → ℚ → LoopEvent
  | exc : LoopEvent
deriving DecidableEq

/-- What the iteration did (the side effect the loop body performs). -/
inductive LoopAction where
  | sleepRetry : LoopAction      -- pipe not open: sleep 50 ms and continue
  | exitLoop : LoopAction        -- `running` was set to false and the loop breaks
  | restartAndSleep : LoopAction -- `_restart_ffmpeg()` then `time.sleep(1)`
  | skipFrame : LoopAction       -- frame dropped by the modulo skip filter
  | publishFrame : LoopAction    -- frame enhanced and both slots published
  | errorSleep : LoopAction      -- exception: sleep 100 ms and continue
  | notRunning : LoopAction      -- `while self.running` is false: no iteration
deriving DecidableEq

/-- `max_empty_reads` in `_process_frames`. -/
def max_empty_reads : ℕ := 150

/-- `max_restart_attempts` in `_process_frames`. -/
def max_restart_attempts : ℕ := 3

/-- One iteration of `_process_frames` (frame size `fs = width*height*3`). -/
def loopStep (fs : ℕ) (s : LoopState) (e : LoopEvent) : LoopState × LoopAction :=
  if s.running then
    match e with
    | .pipeClosed => (s, .sleepRetry)
    | .exc => (s, .errorSleep)
    | .readBytes len t =>
      if len ≠ fs then
        -- empty / short read
        let rf := s.restart_failures + 1
        let er := s.empty_reads + 1
        if er ≥ max_empty_reads then
          ({ s with running := false, restart_failures := rf, empty_reads := er },
           .exitLoop)
        else if rf > max_restart_attempts then
          ({ s with running := false, restart_failures := rf, empty_reads := er },
           .exitLoop)
        else
          ({ s with restart_failures := rf, empty_reads := er }, .restartAndSleep)
      else
        -- full-size read: reset the failure counters
        let s1 := { s with restart_failures := 0, empty_reads := 0 }
        let sc := (s1.skip_counter + 1) % s1.skip_interval
        if sc ≠ 0 then
          ({ s1 with skip_counter := sc }, .skipFrame)
        else
          -- processed frame: adapt the skip interval from the enhancement time
          let si :=
            if t > 60 ∧ s1.skip_interval < 6 then s1.skip_interval + 1
            else if t < 30 ∧ s1.skip_interval > 2 then s1.skip_interval - 1
            else s1.skip_interval
          ({ s1 with
              skip_counter := sc
              skip_interval := si
              published := s1.published + 1 },
           .publishFrame)
  else (s, .notRunning)

/-- The loop variables at entry of `_process_frames` (`running` was set to
true in the constructor). -/
def initLoopState : LoopState :=
  { running := true, restart_failures := 0, empty_reads := 0,
    skip_counter := 0, skip_interval := 3, published := 0 }

/-- Run the reader loop over a sequence of iteration inputs. -/
def runLoop (fs : ℕ) (s : LoopState) (events : List LoopEvent) : LoopState :=
  events.foldl (fun st e => (loopStep fs st e).1) s

/-- The frame size used by a default-sized processor (960×540×3). -/
def defaultFrameSize : ℕ := 960 * 540 * 3

/-- Helper: an iteration on a stopped processor does nothing. -/
theorem loopStep_not_running (fs : ℕ) (s : LoopState) (e : LoopEvent)
    (h : s.running = false) : loopStep fs s e = (s, .notRunning) := by
  simp [loopStep, h]

/-- Helper: characterization of an empty (short or zero-byte) read. -/
theorem loopStep_empty_read (fs : ℕ) (s : LoopState) (len : ℕ) (t : ℚ)
    (hrun : s.running = true) (hlen : len ≠ fs) :
    loopStep fs s (.readBytes len t) =
      if s.empty_reads + 1 ≥ max_empty_reads then
        ({ s with
            running := false
            restart_failures := s.restart_failures + 1
            empty_reads := s.empty_reads + 1 },
         .exitLoop)
      else if s.restart_failures + 1 > max_restart_attempts then
        ({ s with
            running := false
            restart_failures := s.restart_failures + 1
            empty_reads := s.empty_reads + 1 },
         .exitLoop)
      else
        ({ s with
            restart_failures := s.restart_failures + 1
            empty_reads := s.empty_reads + 1 },
         .restartAndSleep) := by
  simp [loopStep, hrun, hlen]

/-- Helper: a full-size read resets both failure counters, whether the frame
is then skipped or processed. -/
theorem loopStep_full_read_resets (fs : ℕ) (s : LoopState) (t : ℚ)
    (hrun : s.running = true) :
    (loopStep fs s (.readBytes fs t)).1.restart_failures = 0 ∧
    (loopStep fs s (.readBytes fs t)).1.empty_reads = 0 := by
  simp only [loopStep, hrun, if_true]
  rw [if_neg (by simp)]
  split
  · exact ⟨rfl, rfl⟩
  · split <;> exact ⟨rfl, rfl⟩

set_option maxRecDepth 10000 in
/-- C3: in the reader loop, an empty (short or zero-byte) read increments
both `restart_failures` and `empty_reads`; if `empty_reads` reaches 150 the
processor sets `running := false` and exits; otherwise if
`restart_failures` exceeds 3 it sets `running := false` and exits;
otherwise the supervisor restart plus a 1 s sleep is performed.  A
successful full-size read resets both counters to zero, and after 150
consecutive empty reads the processor is not running. -/
theorem C3_empty_read_policy (fs : ℕ) (s : LoopState) (len : ℕ) (t t' : ℚ)
    (hrun : s.running = true) (hlen : len ≠ fs) :
    ((loopStep fs s (.readBytes len t)).1.restart_failures
        = s.restart_failures + 1 ∧
     (loopStep fs s (.readBytes len t)).1.empty_reads = s.empty_reads + 1) ∧
    (s.empty_reads + 1 ≥ max_empty_reads →
      (loopStep fs s (.readBytes len t)).1.running = false ∧
      (loopStep fs s (.readBytes len t)).2 = .exitLoop) ∧
    (s.empty_reads + 1 < max_empty_reads →
      s.restart_failures + 1 > max_restart_attempts →
      (loopStep fs s (.readBytes len t)).1.running = false ∧
      (loopStep fs s (.readBytes len t)).2 = .exitLoop) ∧
    (s.empty_reads + 1 < max_empty_reads →
      s.restart_failures + 1 ≤ max_restart_attempts →
      (loopStep fs s (.readBytes len t)).1.running = true ∧
      (loopStep fs s (.readBytes len t)).2 = .restartAndSleep) ∧
    ((loopStep fs s (.readBytes fs t')).1.restart_failures = 0 ∧
     (loopStep fs s (.readBytes fs t')).1.empty_reads = 0) ∧
    (runLoop defaultFrameSize initLoopState
      (List.replicate 150 (.readBytes 0 0))).running = false := by
  rw [loopStep_empty_read fs s len t hrun hlen]
  refine ⟨?_, ?_, ?_, ?_, loopStep_full_read_resets fs s t' hrun, by decide⟩
  · split
    · exact ⟨rfl, rfl⟩
    · split <;> exact ⟨rfl, rfl⟩
  · intro h1
    rw [if_pos h1]
    exact ⟨rfl, rfl⟩
  · intro h1 h2
    rw [if_neg (by omega), if_pos h2]
    exact ⟨rfl, rfl⟩
  · intro h1 h2
    rw [if_neg (by omega), if_neg (by omega)]
    exact ⟨hrun, rfl⟩

/-- C3 witness: the first empty read from the initial state increments both
counters and triggers a supervisor restart. -/
theorem C3_empty_read_policy_witness :
    initLoopState.running = true ∧ (0 : ℕ) ≠ defaultFrameSize ∧
    (loopStep defaultFrameSize initLoopState (.readBytes 0 0)).1.empty_reads = 1 ∧
    (loopStep defaultFrameSize initLoopState (.readBytes 0 0)).2
      = .restartAndSleep :=
  ⟨rfl, by decide,
   (C3_empty_read_policy defaultFrameSize initLoopState 0 0 0 rfl
      (by decide)).1.2,
   ((C3_empty_read_policy defaultFrameSize initLoopState 0 0 0 rfl
      (by decide)).2.2.2.1 (by decide) (by decide)).2⟩

/-- The coupling of the two failure counters of the reader loop: they are
always equal, and while the loop is still running they are at most the
restart budget. -/
def countersInv (s : LoopState) : Prop :=
  s.empty_reads = s.restart_failures ∧
  (s.running = true → s.empty_reads ≤ max_restart_attempts)

/-- Helper: each loop iteration preserves the counter coupling. -/
theorem loopStep_preserves_countersInv (fs : ℕ) (s : LoopState) (e : LoopEvent)
    (h : countersInv s) : countersInv (loopStep fs s e).1 := by
  cases hrun : s.running with
  | false => rw [loopStep_not_running fs s e hrun]; exact h
  | true =>
    cases e with
    | pipeClosed => simpa [loopStep, hrun] using h
    | exc => simpa [loopStep, hrun] using h
    | readBytes len t =>
      by_cases hlen : len ≠ fs
      · rw [loopStep_empty_read fs s len t hrun hlen]
        obtain ⟨h1, _⟩ := h
        split_ifs with hc1 hc2
        · exact ⟨by simp [h1], fun hr => by simp at hr⟩
        · exact ⟨by simp [h1], fun hr => by simp at hr⟩
        · refine ⟨by simp [h1], fun _ => ?_⟩
          simp only [max_restart_attempts] at hc2 ⊢
          omega
      · push_neg at hlen
        subst hlen
        have hr := loopStep_full_read_resets len s t hrun
        refine ⟨by rw [hr.1, hr.2], fun _ => by rw [hr.2]; exact Nat.zero_le _⟩

/-- Helper: the counter coupling holds in every reachable state of the loop. -/
theorem runLoop_countersInv (fs : ℕ) (events : List LoopEvent) (s : LoopState)
    (h : countersInv s) : countersInv (runLoop fs s events) := by
  induction events generalizing s with
  | nil => exact h
  | cons e rest ih =>
    exact ih (loopStep fs s e).1 (loopStep_preserves_countersInv fs s e h)

/-- C9: `empty_reads` equals `restart_failures` in every reachable state of
the reader loop (both incremented together on an empty read, both reset
together on a full-size read), so the restart-budget branch
(`restart_failures > 3`) fires on the 4th consecutive empty read and sets
`running := false`, while the `empty_reads ≥ 150` exit branch is
unreachable: in every reachable still-running state the incremented
`empty_reads` stays far below 150. -/
theorem C9_counter_coupling (fs : ℕ) (events : List LoopEvent) :
    ((runLoop fs initLoopState events).empty_reads
      = (runLoop fs initLoopState events).restart_failures) ∧
    ((runLoop fs initLoopState events).running = true →
      ¬((runLoop fs initLoopState events).empty_reads + 1 ≥ max_empty_reads)) ∧
    (runLoop defaultFrameSize initLoopState
        (List.replicate 3 (.readBytes 0 0))).running = true ∧
    (runLoop defaultFrameSize initLoopState
        (List.replicate 3 (.readBytes 0 0))).empty_reads = 3 ∧
    (loopStep defaultFrameSize
        (runLoop defaultFrameSize initLoopState (List.replicate 3 (.readBytes 0 0)))
        (.readBytes 0 0)).1.running = false ∧
    ¬((runLoop defaultFrameSize initLoopState
        (List.replicate 3 (.readBytes 0 0))).empty_reads + 1 ≥ max_empty_reads) ∧
    ((runLoop defaultFrameSize initLoopState
        (List.replicate 3 (.readBytes 0 0))).restart_failures + 1
      > max_restart_attempts) := by
  have hinv := runLoop_countersInv fs events initLoopState
    ⟨rfl, fun _ => Nat.zero_le _⟩
  refine ⟨hinv.1, fun hr => ?_, by decide, by decide, by decide, by decide,
    by decide⟩
  have := hinv.2 hr
  simp only [max_empty_reads, max_restart_attempts] at this ⊢
  omega

/-- C9 witness: at the initial state (a reachable state) the counters are
equal and the `empty_reads ≥ 150` exit condition cannot fire. -/
theorem C9_counter_coupling_witness :
    (runLoop 1 initLoopState []).empty_reads
      = (runLoop 1 initLoopState []).restart_failures ∧
    ¬((runLoop 1 initLoopState []).empty_reads + 1 ≥ max_empty_reads) :=
  ⟨(C9_counter_coupling 1 []).1, (C9_counter_coupling 1 []).2.1 rfl⟩

/-- The skip-interval bounds of the reader loop. -/
def skipInv (s : LoopState) : Prop :=
  2 ≤ s.skip_interval ∧ s.skip_interval ≤ 6

/-- A full-size read whose frame takes 70 ms to enhance. -/
def read70 : LoopEvent := .readBytes defaultFrameSize 70

/-- Helper: each loop iteration preserves the skip-interval bounds. -/
theorem loopStep_preserves_skipInv (fs : ℕ) (s : LoopState) (e : LoopEvent)
    (h : skipInv s) : skipInv (loopStep fs s e).1 := by
  cases hr : s.running with
  | false => rw [loopStep_not_running fs s e hr]; exact h
  | true =>
    cases e with
    | pipeClosed => simpa [loopStep, hr] using h
    | exc => simpa [loopStep, hr] using h
    | readBytes len t =>
      obtain ⟨h2, h6⟩ := h
      by_cases hlen : len ≠ fs
      · rw [loopStep_empty_read fs s len t hr hlen]
        split_ifs <;> exact ⟨h2, h6⟩
      · push_neg at hlen
        subst hlen
        simp only [loopStep, hr, if_true, if_neg (by simp : ¬(len ≠ len))]
        split_ifs <;> constructor <;> simp [skipInv] <;> omega

/-- Helper: the skip-interval bounds hold in every reachable loop state. -/
theorem runLoop_skipInv (fs : ℕ) (events : List LoopEvent) (s : LoopState)
    (h : skipInv s) : skipInv (runLoop fs s events) := by
  induction events generalizing s with
  | nil => exact h
  | cons e rest ih =>
    exact ih (loopStep fs s e).1 (loopStep_preserves_skipInv fs s e h)

/-- Helper: once the skip interval has saturated at 6, repeated 70 ms
frames keep it at 6. -/
theorem loopStep_read70_saturated (s : LoopState) (h : s.skip_interval = 6) :
    (loopStep defaultFrameSize s read70).1.skip_interval = 6 := by
  cases hr : s.running with
  | false => rw [loopStep_not_running defaultFrameSize s read70 hr]; exact h
  | true =>
    simp only [read70, loopStep, hr, if_true,
      if_neg (by simp : ¬(defaultFrameSize ≠ defaultFrameSize))]
    split_ifs with h1 h2 h3
    · exact h
    · rw [h] at h2
      exact absurd h2.2 (by norm_num)
    · exact absurd h3.1 (by norm_num)
    · exact h

/-- Helper: runLoop over repeated 70 ms frames keeps a saturated interval. -/
theorem runLoop_read70_saturated (n : ℕ) (s : LoopState)
    (h : s.skip_interval = 6) :
    (runLoop defaultFrameSize s (List.replicate n read70)).skip_interval = 6 := by
  induction n generalizing s with
  | zero => exact h
  | succ m ih =>
    rw [List.replicate_succ]
    exact ih (loopStep defaultFrameSize s read70).1
      (loopStep_read70_saturated s h)

/-- C4: `skip_interval` starts at 3 and stays within [2,6] in every
reachable state of the reader loop; after each processed frame it is
incremented exactly when the enhancement wall-time exceeds 60 ms and
`skip_interval < 6`, and decremented exactly when the wall-time is below
30 ms and `skip_interval > 2`; every iteration that does not process a
frame leaves it unchanged; and with repeated 70 ms frames from the initial
state the next processed frame raises it to 4, after which it saturates
at 6. -/
theorem C4_skip_interval_adaptation (fs : ℕ) (events : List LoopEvent) :
    initLoopState.skip_interval = 3 ∧
    (2 ≤ (runLoop fs initLoopState events).skip_interval ∧
      (runLoop fs initLoopState events).skip_interval ≤ 6) ∧
    (∀ (s : LoopState) (t : ℚ), s.running = true → 2 ≤ s.skip_interval →
      (s.skip_counter + 1) % s.skip_interval = 0 →
      (((loopStep fs s (.readBytes fs t)).1.skip_interval
          = s.skip_interval + 1) ↔ (t > 60 ∧ s.skip_interval < 6)) ∧
      (((loopStep fs s (.readBytes fs t)).1.skip_interval
          = s.skip_interval - 1) ↔ (t < 30 ∧ s.skip_interval > 2))) ∧
    (∀ (s : LoopState) (e : LoopEvent), (loopStep fs s e).2 ≠ .publishFrame →
      (loopStep fs s e).1.skip_interval = s.skip_interval) ∧
    (runLoop defaultFrameSize initLoopState
      (List.replicate 3 read70)).skip_interval = 4 ∧
    (∀ n : ℕ, (runLoop defaultFrameSize initLoopState
      (List.replicate (18 + n) read70)).skip_interval = 6) := by
  refine ⟨rfl, runLoop_skipInv fs events initLoopState ⟨by decide, by decide⟩,
    ?_, ?_, by decide, ?_⟩
  · intro s t hrun h2 hproc
    simp only [loopStep, hrun, if_true, if_neg (by simp : ¬(fs ≠ fs))]
    rw [if_neg (by simp [hproc])]
    dsimp only
    constructor
    · split_ifs with hc1 hc2
      · exact iff_of_true rfl hc1
      · exact iff_of_false (by omega) hc1
      · exact iff_of_false (by omega) hc1
    · split_ifs with hc1 hc2
      · refine iff_of_false (by omega) (fun hc => ?_)
        have h60 := hc1.1
        have h30 := hc.1
        linarith
      · exact iff_of_true rfl hc2
      · exact iff_of_false (by omega) hc2
  · intro s e hne
    cases hr : s.running with
    | false => rw [loopStep_not_running fs s e hr]
    | true =>
      cases e with
      | pipeClosed => simp [loopStep, hr]
      | exc => simp [loopStep, hr]
      | readBytes len t =>
        by_cases hlen : len ≠ fs
        · rw [loopStep_empty_read fs s len t hr hlen]
          split_ifs <;> rfl
        · push_neg at hlen
          subst hlen
          revert hne
          simp only [loopStep, hr, if_true, if_neg (by simp : ¬(len ≠ len))]
          split_ifs <;> simp
  · intro n
    rw [List.replicate_add, runLoop, List.foldl_append]
    exact runLoop_read70_saturated n _ (by decide)

/-- C4 witness: the bounds hold at the (reachable) initial state, and a
processed frame taking 70 ms with `skip_interval = 3` raises it to 4. -/
theorem C4_skip_interval_adaptation_witness :
    2 ≤ (runLoop 1 initLoopState []).skip_interval ∧
    (loopStep defaultFrameSize { initLoopState with skip_counter := 2 }
        (.readBytes defaultFrameSize 70)).1.skip_interval = 3 + 1 :=
  ⟨(C4_skip_interval_adaptation 1 []).2.1.1,
   (((C4_skip_interval_adaptation defaultFrameSize []).2.2.1
      { initLoopState with skip_counter := 2 } 70 rfl (by decide)
      (by decide)).1).mpr ⟨by decide, by decide⟩⟩

/-! ## The per-processor frame cache

`_process_frames` prepares copies of the raw and enhanced buffers outside
the critical section and assigns both slots under the per-processor mutex
`self.lock`; `get_original_frame` and `get_enhanced_frame` copy a slot under
the same mutex.  The cache is modelled as a transition system whose writer
walks through the critical section step by step; a reader can hold the lock
(and thus observe the slots) only in states where the writer is outside the
critical section. -/

/-- The writer's position relative to its critical section. -/
inductive WriterPC where
  | outside : WriterPC    -- lock not held by the writer
  | entered : WriterPC    -- lock acquired, nothing written yet
  | wroteOriginal : WriterPC -- `self.original_frame = original_copy` done
  | wroteBoth : WriterPC  -- `self.enhanced_frame = enhanced_copy` done
deriving DecidableEq

/-- Cache state: the two slots (each tagged with the index of the decoder
frame it was derived from) and the writer's position.  `cur` is the index
of the decoder frame whose copies the writer prepared outside the lock. -/
structure CacheState (α : Type) where
  wpc : WriterPC
  cur : ℕ
  original_frame : Option (ℕ × α)
  enhanced_frame : Option (ℕ × α)

/-- Initial cache: both slots are `None`, the writer is outside the lock. -/
def initCache {α : Type} : CacheState α :=
  { wpc := .outside, cur := 0, original_frame := none, enhanced_frame := none }

/-- One transition of the cache.  `orig n` and `enh n` are the copies of
decoder frame `n` (raw, and enhanced) that the writer prepared outside the
critical section; the two slot assignments are separate steps that can only
happen while the writer holds the lock. -/
inductive CacheStep (orig enh : ℕ → α) : CacheState α → CacheState α → Prop where
  | acquire (s : CacheState α) (n : ℕ) : s.wpc = .outside →
      CacheStep orig enh s { s with wpc := .entered, cur := n }
  | writeOriginal (s : CacheState α) : s.wpc = .entered →
      CacheStep orig enh s
        { s with wpc := .wroteOriginal,
                 original_frame := some (s.cur, orig s.cur) }
  | writeEnhanced (s : CacheState α) : s.wpc = .wroteOriginal →
      CacheStep orig enh s
        { s with wpc := .wroteBoth,
                 enhanced_frame := some (s.cur, enh s.cur) }
  | release (s : CacheState α) : s.wpc = .wroteBoth →
      CacheStep orig enh s { s with wpc := .outside }

/-- Reachability of cache states from the initial cache. -/
inductive CacheReachable (orig enh : ℕ → α) : CacheState α → Prop where
  | init : CacheReachable orig enh initCache
  | step {s s' : CacheState α} : CacheReachable orig enh s →
      CacheStep orig enh s s' → CacheReachable orig enh s'

/-- `get_original_frame`: under the lock, a copy of the slot (or `None`). -/
def get_original_frame {α : Type} (s : CacheState α) : Option α :=
  s.original_frame.map Prod.snd

/-- `get_enhanced_frame`: under the lock, a copy of the slot (or `None`). -/
def get_enhanced_frame {α : Type} (s : CacheState α) : Option α :=
  s.enhanced_frame.map Prod.snd

/-- The paired-slots contract: both slots absent, or both derived from the
same decoder frame. -/
def pairConsistent (orig enh : ℕ → α) (s : CacheState α) : Prop :=
  (s.original_frame = none ∧ s.enhanced_frame = none) ∨
  (∃ n, s.original_frame = some (n, orig n) ∧
        s.enhanced_frame = some (n, enh n))

/-- The inductive invariant: outside and just after acquiring the lock the
pair is consistent; between the two writes the original slot already holds
the current frame and the enhanced slot is the old one. -/
def cacheInv (orig enh : ℕ → α) (s : CacheState α) : Prop :=
  match s.wpc with
  | .outside => pairConsistent orig enh s
  | .entered => pairConsistent orig enh s
  | .wroteOriginal =>
      s.original_frame = some (s.cur, orig s.cur) ∧
      (s.enhanced_frame = none ∨ ∃ m, s.enhanced_frame = some (m, enh m))
  | .wroteBoth =>
      s.original_frame = some (s.cur, orig s.cur) ∧
      s.enhanced_frame = some (s.cur, enh s.cur)

/-- Helper: every cache transition preserves the invariant. -/
theorem cacheStep_preserves_inv {α : Type} (orig enh : ℕ → α)
    {s s' : CacheState α} (hstep : CacheStep orig enh s s')
    (h : cacheInv orig enh s) : cacheInv orig enh s' := by
  cases hstep with
  | acquire n hpc =>
    rw [cacheInv, hpc] at h
    exact h
  | writeOriginal hpc =>
    rw [cacheInv, hpc] at h
    rcases h with ⟨_, he⟩ | ⟨m, _, he⟩
    · exact ⟨rfl, Or.inl he⟩
    · exact ⟨rfl, Or.inr ⟨m, he⟩⟩
  | writeEnhanced hpc =>
    rw [cacheInv, hpc] at h
    exact ⟨h.1, rfl⟩
  | release hpc =>
    rw [cacheInv, hpc] at h
    exact Or.inr ⟨s.cur, h.1, h.2⟩

/-- Helper: the invariant holds in every reachable cache state. -/
theorem cacheReachable_inv {α : Type} (orig enh : ℕ → α) {s : CacheState α}
    (h : CacheReachable orig enh s) : cacheInv orig enh s := by
  induction h with
  | init => exact Or.inl ⟨rfl, rfl⟩
  | step _ hstep ih => exact cacheStep_preserves_inv orig enh hstep ih

/-- C1: in every reachable cache state in which the writer is outside its
critical section — exactly the states in which a reader can hold the
per-processor mutex and take its copy — `original_frame` and
`enhanced_frame` are either both absent or both derived from the same
decoder source frame, so no reader ever observes a mixed pair. -/
theorem C1_paired_frames {α : Type} (orig enh : ℕ → α) (s : CacheState α)
    (hreach : CacheReachable orig enh s) (hout : s.wpc = .outside) :
    pairConsistent orig enh s ∧
    ((get_original_frame s = none ∧ get_enhanced_frame s = none) ∨
      ∃ n, get_original_frame s = some (orig n) ∧
           get_enhanced_frame s = some (enh n)) := by
  have h := cacheReachable_inv orig enh hreach
  rw [cacheInv, hout] at h
  refine ⟨h, ?_⟩
  rcases h with ⟨ho, he⟩ | ⟨n, ho, he⟩
  · exact Or.inl ⟨by simp [get_original_frame, ho],
      by simp [get_enhanced_frame, he]⟩
  · exact Or.inr ⟨n, by simp [get_original_frame, ho],
      by simp [get_enhanced_frame, he]⟩

/-- C1 witness: the initial cache is reachable, has the writer outside the
critical section, and satisfies the paired-slots contract. -/
theorem C1_paired_frames_witness :
    (initCache : CacheState ℕ).wpc = .outside ∧
    pairConsistent id id (initCache : CacheState ℕ) :=
  ⟨rfl, (C1_paired_frames id id initCache .init rfl).1⟩

/-! ## The reachability probe `VideoStreamProcessor._rtsp_available`

Python strings are modelled as `List Char` so that every string operation
reduces by computation.  The TCP connect (with its 1.0 s timeout, its DNS
resolution and any `OSError` it may raise) is modelled by an oracle
`connect : List Char → ℤ → Bool` that returns whether the connection
attempt to `(host, port)` succeeds within the timeout. -/

/-- A Python string. -/
abbrev PyStr : Type := List Char

/-- `url.strip("/")`: remove `/` characters from both ends. -/
def stripSlashes (s : PyStr) : PyStr :=
  ((s.dropWhile (· == '/')).reverse.dropWhile (· == '/')).reverse

/-- `url.strip("/").split("/")[-1]`: the last path segment. -/
def lastPathSegment (url : PyStr) : PyStr :=
  ((stripSlashes url).splitOn '/').getLastD []

/-- The placeholder test: `last_seg.startswith("camera-")`. -/
def isPlaceholderUrl (url : PyStr) : Bool :=
  "camera-".toList.isPrefixOf (lastPathSegment url)

/-- `s.replace(pat, "")` for a non-empty pattern: delete every left-to-right
non-overlapping occurrence of `pat`.  Implemented with an explicit fuel
argument (the length of the remaining string) so that it reduces by
computation. -/
def removePatFuel (pat : List Char) : ℕ → List Char → List Char
  | 0, _ => []
  | _ + 1, [] => []
  | fuel + 1, c :: rest =>
    if pat.isPrefixOf (c :: rest) ∧ pat ≠ [] then
      removePatFuel pat fuel (List.drop (pat.length - 1) rest)
    else
      c :: removePatFuel pat fuel rest

/-- `s.replace(pat, "")`. -/
def removePat (pat : List Char) (s : List Char) : List Char :=
  removePatFuel pat s.length s

/-- `url.replace("rtsp://", "").split("/")[0]`: the `host[:port]` target. -/
def parseTarget (url : PyStr) : PyStr :=
  ((removePat "rtsp://".toList url).splitOn '/').headD []

/-- Python `int(s)`: an optional sign followed by at least one digit.
(The Python function also accepts surrounding whitespace and underscore
separators; those inputs do not occur in `host:port` parsing and are
rejected here.) -/
def pyInt : PyStr → Option ℤ
  | [] => none
  | '-' :: rest =>
    if rest ≠ [] ∧ rest.all Char.isDigit then
      some (-(rest.foldl (fun n c => 10 * n + (c.toNat - 48)) 0 : ℕ))
    else none
  | '+' :: rest =>
    if rest ≠ [] ∧ rest.all Char.isDigit then
      some ((rest.foldl (fun n c => 10 * n + (c.toNat - 48)) 0 : ℕ))
    else none
  | s =>
    if s.all Char.isDigit then
      some ((s.foldl (fun n c => 10 * n + (c.toNat - 48)) 0 : ℕ))
    else none

/-- Parse `host[:port]` as the probe does: if the target contains `:` it
must split into exactly two parts with an integer port (`host, port =
target.split(":")`, `int(port)`; any failure raises and is caught);
otherwise the port defaults to 554. -/
def hostPort (url : PyStr) : Option (PyStr × ℤ) :=
  let target := parseTarget url
  if target.contains ':' then
    match target.splitOn ':' with
    | [h, p] =>
      match pyInt p with
      | some n => some (h, n)
      | none => none
    | _ => none
  else
    some (target, 554)

/-- `_rtsp_available(url)`: rule 1 classifies placeholder URLs offline with
no network access; rule 2 parses `host[:port]` (default port 554) and
reports the outcome of a TCP connect attempt with a 1.0 s timeout, any
parse or connection failure giving `false`. -/
def rtsp_available (connect : PyStr → ℤ → Bool) (url : PyStr) : Bool :=
  if isPlaceholderUrl url then false
  else
    match hostPort url with
    | some (h, p) => connect h p
    | none => false

/-- C8: a URL whose final path segment (after stripping surrounding
slashes) starts with the literal `camera-` is classified unreachable with
no network access (the outcome does not depend on the connect oracle at
all); every other URL is classified by parsing `host[:port]` — port
defaulting to 554 when the target carries no `:` — and returning exactly
the outcome of the TCP connect attempt, every parse failure (and, inside
the oracle, every DNS/connect/timeout failure) yielding unreachable. -/
theorem C8_rtsp_probe (url : PyStr) (connect connect' : PyStr → ℤ → Bool) :
    (isPlaceholderUrl url = true →
      rtsp_available connect url = false ∧
      rtsp_available connect url = rtsp_available connect' url) ∧
    (isPlaceholderUrl url = false →
      rtsp_available connect url =
        (match hostPort url with
         | some (h, p) => connect h p
         | none => false)) ∧
    (isPlaceholderUrl url = false → (parseTarget url).contains ':' = false →
      hostPort url = some (parseTarget url, 554)) := by
  refine ⟨fun hp => ?_, fun hp => ?_, fun hp hc => ?_⟩
  · simp [rtsp_available, hp]
  · simp [rtsp_available, hp]
  · simp only [hostPort]
    rw [if_neg (by rw [hc]; exact Bool.false_ne_true)]

/-- C8 witness: the probe at concrete URLs — the placeholder
`…/camera-7` is unreachable even under an always-succeeding connect
oracle, and a plain host URL parses with the default port 554. -/
theorem C8_rtsp_probe_witness :
    isPlaceholderUrl "rtsp://localhost:8554/camera-7".toList = true ∧
    rtsp_available (fun _ _ => true)
      "rtsp://localhost:8554/camera-7".toList = false ∧
    hostPort "rtsp://example.com/live".toList
      = some ("example.com".toList, 554) :=
  ⟨by decide,
   ((C8_rtsp_probe "rtsp://localhost:8554/camera-7".toList
      (fun _ _ => true) (fun _ _ => false)).1 (by decide)).1,
   (C8_rtsp_probe "rtsp://example.com/live".toList
      (fun _ _ => true) (fun _ _ => false)).2.2 (by decide) (by decide)⟩

/-! ## The enhancement pipeline `VideoStreamProcessor._apply_enhancement`

Frames are functions `y → x → channel → byte`.  The CLAHE operator
(`cv2.createCLAHE(...)` plus the LAB round-trip of `_apply_clahe`) is an
external OpenCV algorithm; the pipeline is parameterised over it as a
function of the clip limit and tile grid size.  (The operator instance
cached on the processor is rebuilt exactly when either parameter changes,
so it always behaves as this function of the two parameters.)  OpenCV's
arithmetic on `uint8` images rounds to nearest and saturates to
`[0, 255]`; OpenCV rounds exact halves to even while `round` here rounds
them up — no statement below exercises an exact half. -/

/-- A frame: `img y x c` is the byte at row `y`, column `x`, channel `c`. -/
def Frame : Type := ℕ → ℕ → ℕ → ℕ

/-- `saturate_cast<uchar>(cvRound(q))`: round to nearest, clamp to [0,255]. -/
def satRound (q : ℚ) : ℕ := (min 255 (max 0 (round q))).toNat

/-- `self.lut.astype(np.uint8)` read at `(v, c)`: the cast wraps mod 256. -/
def lutByte (lut : ℕ → ℕ → ℕ) (v c : ℕ) : ℕ := lut v c % 256

/-- `_apply_lut(image, strength)`: per-channel table mapping
`mapped[y,x,c] = LUT[image[y,x,c], c]`, then, when `strength < 1.0`,
`cv2.addWeighted(image, 1-strength, mapped, strength, 0)`. -/
def apply_lut (lut : ℕ → ℕ → ℕ) (strength : ℚ) (img : Frame) : Frame :=
  let mapped : Frame := fun y x c => lutByte lut (img y x c) c
  if strength < 1 then
    fun y x c =>
      satRound ((1 - strength) * (img y x c : ℚ)
        + strength * (mapped y x c : ℚ) + 0)
  else mapped

/-- The gamma table of `_apply_gamma`:
`np.array([(i/255.0) ** (1.0/gamma) * 255 for i in range(256)],
dtype=np.uint8)`.  The `float → uint8` cast truncates toward zero, which
on these non-negative entries is the floor. -/
noncomputable def gammaTable (γ : ℚ) (i : ℕ) : ℕ :=
  (⌊((i : ℝ) / 255) ^ ((γ : ℝ))⁻¹ * 255⌋).toNat

/-- `_apply_gamma(img, gamma) = cv2.LUT(img, table)`. -/
noncomputable def apply_gamma (γ : ℚ) (img : Frame) : Frame :=
  fun y x c => gammaTable γ (img y x c)

/-- The 256-entry table the spec asserts, with `round` in place of the
truncation: for comparison with `gammaTable`. -/
noncomputable def roundGammaTable (γ : ℚ) (i : ℕ) : ℕ :=
  (round (((i : ℝ) / 255) ^ ((γ : ℝ))⁻¹ * 255)).toNat

/-- The fixed sharpen kernel: centre 1.8, neighbours -0.1. -/
def sharpen_kernel (dy dx : ℤ) : ℚ :=
  if dy = 0 ∧ dx = 0 then Rat.mk' 9 5 else -(Rat.mk' 1 10)

/-- `cv2.filter2D`'s default `BORDER_REFLECT_101` index folding (for the
±1 offsets of a 3×3 kernel). -/
def reflect101 (n : ℕ) (i : ℤ) : ℕ :=
  if n ≤ 1 then 0
  else if i < 0 then (-i).toNat
  else if (n : ℤ) ≤ i then (2 * ((n : ℤ) - 1) - i).toNat
  else i.toNat

/-- `_apply_sharpen(img) = cv2.filter2D(img, -1, self.sharpen_kernel)` on a
`h × w` frame: 3×3 correlation with reflected borders, rounded and
saturated per channel. -/
def apply_sharpen (h w : ℕ) (img : Frame) : Frame :=
  fun y x c =>
    satRound
      ((([-1, 0, 1] : List ℤ).map (fun dy =>
        (([-1, 0, 1] : List ℤ).map (fun dx =>
          sharpen_kernel dy dx *
            (img (reflect101 h ((y : ℤ) + dy))
                 (reflect101 w ((x : ℤ) + dx)) c : ℚ))).sum)).sum)

/-- The LUT stage of `_apply_enhancement`: applied only when the camera
has a valid LUT and `lut_enabled` (default true) is truthy. -/
def lutStage (lut : Option (ℕ → ℕ → ℕ)) (params : ParamStore) (img : Frame) :
    Frame :=
  match lut with
  | some l =>
    if getTruthy params "lut_enabled" true then
      apply_lut l (getNum params "lut_strength" 1) img
    else img
  | none => img

/-- The CLAHE stage of `_apply_enhancement`: applied only when
`clahe_enabled` (default true) is truthy, with clip limit (default 2.0)
and tile grid size (default (8,8)) read from the params. -/
def claheStage (clahe : ℚ → ℕ × ℕ → Frame → Frame) (params : ParamStore)
    (img : Frame) : Frame :=
  if getTruthy params "clahe_enabled" true then
    clahe (getNum params "clahe_clip_limit" 2)
      (getPair params "clahe_tile_grid_size" (8, 8)) img
  else img

/-- `_apply_enhancement(frame)`: LUT, then gamma when
`params.get("gamma", 1.0) != 1.0`, then CLAHE, then the sharpen
convolution; the defogging stage is commented out in the source. -/
noncomputable def apply_enhancement (clahe : ℚ → ℕ × ℕ → Frame → Frame)
    (lut : Option (ℕ → ℕ → ℕ)) (params : ParamStore) (h w : ℕ)
    (frame : Frame) : Frame :=
  let r1 := lutStage lut params frame
  let γ := getNum params "gamma" 1
  let r2 := if γ ≠ 1 then apply_gamma γ r1 else r1
  let r3 := claheStage clahe params r2
  apply_sharpen h w r3

/-- The parameter record of claim C6:
`lut_strength = 0, gamma = 1, clahe_enabled = false`. -/
def c6Params : ParamStore :=
  fun k => ([("lut_strength", .pnum 0),
             ("gamma", .pnum 1),
             ("clahe_enabled", .pbool false)] : List (String × PVal)).lookup k

/-- Helper: `satRound` of a byte value is the byte itself. -/
theorem satRound_natCast (v : ℕ) (hv : v ≤ 255) : satRound (v : ℚ) = v := by
  rw [satRound, round_natCast]
  omega

/-- C6: with a valid LUT and parameters `lut_strength = 0, gamma = 1,
clahe_enabled = false`, the enhancement pipeline equals the fixed 3×3
sharpen convolution applied to the source frame: the LUT stage's
`addWeighted` blend at strength 0 returns the source, the gamma stage is
skipped because `gamma = 1.0`, the CLAHE stage is disabled, and only the
sharpen convolution remains. -/
theorem C6_pipeline_is_sharpen (clahe : ℚ → ℕ × ℕ → Frame → Frame)
    (lut : ℕ → ℕ → ℕ) (h w : ℕ) (img : Frame)
    (hb : ∀ y x c, img y x c ≤ 255) :
    apply_enhancement clahe (some lut) c6Params h w img
      = apply_sharpen h w img := by
  have hlut : lutStage (some lut) c6Params img = img := by
    funext y x c
    have he : getTruthy c6Params "lut_enabled" true = true := rfl
    have hs : getNum c6Params "lut_strength" 1 = 0 := rfl
    simp only [lutStage, he, if_true, apply_lut, hs]
    rw [if_pos (by norm_num : (0 : ℚ) < 1)]
    have harith :
        (1 - (0 : ℚ)) * (img y x c : ℚ)
          + 0 * (lutByte lut (img y x c) c : ℚ) + 0 = (img y x c : ℚ) := by
      ring
    rw [harith, satRound_natCast (img y x c) (hb y x c)]
  have hγ : getNum c6Params "gamma" 1 = 1 := rfl
  have hcl : getTruthy c6Params "clahe_enabled" true = false := rfl
  simp only [apply_enhancement, hγ, hlut, claheStage, hcl, ne_eq,
    not_true_eq_false, if_false, Bool.false_eq_true]

/-- C6 witness: a concrete 1×1 zero frame with the identity-shaped LUT and
a clahe operator. -/
theorem C6_pipeline_is_sharpen_witness :
    (∀ y x c : ℕ, (fun (_ _ _ : ℕ) => 0) y x c ≤ 255) ∧
    apply_enhancement (fun _ _ f => f) (some (fun _ _ => 0)) c6Params 1 1
        (fun _ _ _ => 0)
      = apply_sharpen 1 1 (fun _ _ _ => 0) :=
  ⟨fun _ _ _ => Nat.zero_le 255,
   C6_pipeline_is_sharpen (fun _ _ f => f) (fun _ _ => 0) 1 1
     (fun _ _ _ => 0) (fun _ _ _ => Nat.zero_le 255)⟩

/-- C5: counterexample.  At `gamma = 0.5` the code's table entry for byte
12 is `int((12/255) ** 2 * 255) = int(0.5647…) = 0` (the `uint8` cast
truncates), while the claimed rounded table gives
`round(0.5647…) = 1`. -/
theorem C5_gamma_round_counterexample :
    gammaTable (Rat.mk' 1 2) 12 = 0 ∧ roundGammaTable (Rat.mk' 1 2) 12 = 1 := by
  have hx : (((12 : ℕ) : ℝ) / 255) ^ (((Rat.mk' 1 2 : ℚ) : ℝ))⁻¹ * 255
      = 48 / 85 := by
    have hc : ((Rat.mk' 1 2 : ℚ) : ℝ) = 1 / 2 := by
      rw [Rat.cast_def]
      norm_num
    rw [hc, show ((1 : ℝ) / 2)⁻¹ = ((2 : ℕ) : ℝ) by norm_num,
      Real.rpow_natCast]
    norm_num
  constructor
  · rw [gammaTable, hx]
    norm_num
  · rw [roundGammaTable, hx, round_eq]
    norm_num

/-- C5 (amended): when `params.get("gamma", 1.0)` is some `γ ≠ 1` (and
`γ > 0`, per the data model), the pipeline inserts the gamma stage between
the LUT and CLAHE stages, and that stage maps each channel byte `i`
through the 256-entry table `T[i] = int(((i/255) ** (1/γ)) * 255)` — a
truncation (floor), not the claimed rounding; when `γ = 1.0` the stage is
skipped and the image passes through to the CLAHE stage unchanged.  The
table is byte-valued on byte inputs and fixes the endpoints 0 and 255. -/
theorem C5_gamma_stage (clahe : ℚ → ℕ × ℕ → Frame → Frame)
    (lut : Option (ℕ → ℕ → ℕ)) (params : ParamStore) (h w : ℕ) (img : Frame)
    (γ : ℚ) (hγ : getNum params "gamma" 1 = γ) (hpos : 0 < γ) :
    (γ ≠ 1 → apply_enhancement clahe lut params h w img
      = apply_sharpen h w (claheStage clahe params
          (apply_gamma γ (lutStage lut params img)))) ∧
    (∀ img' : Frame, ∀ y x c, apply_gamma γ img' y x c
      = (⌊((img' y x c : ℝ) / 255) ^ ((γ : ℝ))⁻¹ * 255⌋).toNat) ∧
    (γ = 1 → apply_enhancement clahe lut params h w img
      = apply_sharpen h w (claheStage clahe params (lutStage lut params img))) ∧
    (∀ i, i ≤ 255 → gammaTable γ i ≤ 255) ∧
    gammaTable γ 0 = 0 ∧ gammaTable γ 255 = 255 := by
  have hγR : (0 : ℝ) < (γ : ℝ) := by exact_mod_cast hpos
  refine ⟨fun hne => ?_, fun img' y x c => rfl, fun heq => ?_, ?_, ?_, ?_⟩
  · simp only [apply_enhancement, hγ, if_pos hne]
  · simp only [apply_enhancement, hγ, heq, ne_eq, not_true_eq_false,
      if_false]
  · intro i hi
    rw [gammaTable]
    have h0 : (0 : ℝ) ≤ (i : ℝ) / 255 := by positivity
    have h1 : (i : ℝ) / 255 ≤ 1 := by
      rw [div_le_one (by norm_num)]
      exact_mod_cast hi
    have hz : (0 : ℝ) ≤ ((γ : ℝ))⁻¹ := by positivity
    have hle : ((i : ℝ) / 255) ^ ((γ : ℝ))⁻¹ ≤ 1 :=
      Real.rpow_le_one h0 h1 hz
    have hle' : ((i : ℝ) / 255) ^ ((γ : ℝ))⁻¹ * 255 ≤ 255 := by nlinarith
    have hfl : ⌊((i : ℝ) / 255) ^ ((γ : ℝ))⁻¹ * 255⌋ ≤ 255 := by
      calc ⌊((i : ℝ) / 255) ^ ((γ : ℝ))⁻¹ * 255⌋
          ≤ ⌊(255 : ℝ)⌋ := Int.floor_le_floor hle'
        _ = 255 := by norm_num
    exact Int.toNat_le.mpr (by exact_mod_cast hfl)
  · rw [gammaTable]
    rw [show ((0 : ℕ) : ℝ) / 255 = 0 by norm_num]
    rw [Real.zero_rpow (inv_ne_zero hγR.ne')]
    norm_num
  · rw [gammaTable]
    rw [show ((255 : ℕ) : ℝ) / 255 = 1 by norm_num]
    rw [Real.one_rpow]
    norm_num
    decide

/-- A parameter record with `gamma = 0.5`, for the C5 witness. -/
def pGammaHalf : ParamStore :=
  fun k => ([(("gamma" : String), PVal.pnum (Rat.mk' 1 2))]).lookup k

/-- C5 witness: the gamma-stage facts instantiated at `γ = 0.5`. -/
theorem C5_gamma_stage_witness :
    getNum pGammaHalf "gamma" 1 = Rat.mk' 1 2 ∧ (0 : ℚ) < Rat.mk' 1 2 ∧
    gammaTable (Rat.mk' 1 2) 0 = 0 :=
  ⟨by decide, by decide,
   (C5_gamma_stage (fun _ _ f => f) none pGammaHalf 1 1 (fun _ _ _ => 0)
     (Rat.mk' 1 2) (by decide) (by decide)).2.2.2.2.1⟩
